import Mathlib

/-!
Verification development for the `babysmonthonphoto` repository.

The repository consists of two Python driver scripts:

* `add_baby_age_to_photos.py` — extracts a date from a photo filename
  (`extract_date_from_filename`), validates it coarsely (`_is_valid_date`),
  builds a `datetime`, and computes an age label (`calculate_age`) against the
  fixed birth date 2025-09-02.
* `add_timestamp_to_photos.py` — duplicates the extraction and validation code
  verbatim, but renders the matched groups as a `"YYYY.MM.DD"` string instead
  of building a `datetime`.

This file gives a shallow embedding of that logic.  Filenames are Lean
`String`s processed as `List Char`; regular-expression searches are embedded
as explicit leftmost-match scanners over the character list (the two patterns
in the source are fixed-width, so matching at a position is a direct character
test, and `re.search` returns the leftmost position that matches).  The `\d`
character class of a Python `str` pattern matches any Unicode decimal digit
(category Nd), not only ASCII; it is modelled by `isDig` below, and the ASCII
digits — the only ones the zero-padded `"YYYY.MM.DD"` rendering can produce —
by the sub-predicate `isAsciiDig`.  Python integers are `Int`.  Python `//`
and `%` on the nonnegative operands used here agree with Lean `Int` `/` and
`%`.  The `datetime` constructor, which raises `ValueError` on a triple that
is not a real proleptic-Gregorian calendar date, is embedded as an
`Except String` value, and the age script's extractor — which calls that
constructor — accordingly returns `Except String (Option Date)`: `.ok none`
models Python `None`, `.error` models an uncaught `ValueError`.
-/

deriving instance DecidableEq for Except

namespace BabyPhoto

/-- A year/month/day triple, the value produced by date extraction.
Mirrors the data carried by Python's `datetime(year, month, day)` (the
time-of-day components are always zero in this program). -/
structure Date where
  year : Int
  month : Int
  day : Int
deriving DecidableEq, Repr

/-- First code points of Unicode decimal-digit (Nd) blocks.  Every Nd block
is a run of exactly ten consecutive code points carrying the digit values
0–9 in order (the Unicode stability policy for decimal digits), so a block is
determined by its start.  Listed here are the ASCII digits followed by the
major national digit blocks: Arabic-Indic, Extended Arabic-Indic, Devanagari,
Bengali, Gurmukhi, Gujarati, Oriya, Tamil, Telugu, Kannada, Malayalam, Thai,
Lao, Tibetan, Myanmar, Khmer, Mongolian, and the full-width digits.  Python's
`re` accepts the remaining, rarer Nd blocks as well; they have the same
ten-consecutive-code-point structure and are parsed positionally by `int()`,
so they behave exactly like the blocks listed, and every lemma below that
touches this list uses only that structure (plus the fact that the ASCII
block is the first entry) — extending the list changes no proof. -/
def ndStarts : List Nat :=
  [48, 1632, 1776, 2406, 2534, 2662, 2790, 2918, 3046, 3174,
    3302, 3430, 3664, 3792, 3872, 4160, 6112, 6160, 65296]

/-- Models the regex class `\d` of a `str` pattern: any Unicode decimal
digit (category Nd), i.e. a character of one of the ten-code-point Nd
blocks. -/
def isDig (c : Char) : Bool :=
  ndStarts.any (fun s => s ≤ c.toNat && c.toNat ≤ s + 9)

/-- An ASCII digit `'0'..'9'` — the digits zero-padded rendering produces. -/
def isAsciiDig (c : Char) : Bool := 48 ≤ c.toNat && c.toNat ≤ 57

/-- The decimal value of a digit character: its offset inside its Nd block
(0 for non-digits, which never reach it). -/
def digitVal (c : Char) : Nat :=
  match ndStarts.find? (fun s => s ≤ c.toNat && c.toNat ≤ s + 9) with
  | some s => c.toNat - s
  | none => 0

/-- Models the regex class `[.\-_]` used between date components. -/
def isDelim (c : Char) : Bool := c == '.' || c == '-' || c == '_'

/-- Python `int` applied to a string of decimal digits (of any script —
`int()` parses every Unicode Nd digit positionally). -/
def strToNat (l : List Char) : Nat :=
  l.foldl (fun a c => 10 * a + digitVal c) 0

/-- Python `int` applied to a string of ASCII digits, as an `Int`. -/
def strToInt (l : List Char) : Int := strToNat l

/-- Index of the last character satisfying `p`, if any. -/
def lastIndexWhere (p : Char → Bool) (l : List Char) : Option Nat :=
  (l.foldl (fun (acc : Nat × Option Nat) c =>
    (acc.1 + 1, if p c then some acc.1 else acc.2)) (0, none)).2

/-- `os.path.splitext(filename)[0]`: drop the extension, i.e. everything from
the last `'.'` on, provided that dot lies after the last path separator and at
least one character of the basename before it is not a dot (cf. CPython
`genericpath._splitext` with the Windows separators `'\\'` and `'/'`). -/
def splitextRoot (l : List Char) : List Char :=
  let sepIndex : Int :=
    match lastIndexWhere (fun c => c == '\\' || c == '/') l with
    | some i => (i : Int)
    | none => -1
  match lastIndexWhere (fun c => c == '.') l with
  | some dotIndex =>
    if sepIndex < (dotIndex : Int) then
      let start : Nat := (sepIndex + 1).toNat
      if ((l.drop start).take (dotIndex - start)).any (fun c => c != '.') then
        l.take dotIndex
      else l
    else l
  | none => l

/-- One attempt of the delimited-triple regex
`(\d{4})[.\-_](\d{2})[.\-_](\d{2})` at the head of the list.  The pattern is
fixed-width, so a match at a position is this direct character test; on
success the three capture groups are returned as digit strings. -/
def delimMatchAt : List Char → Option (List Char × List Char × List Char)
  | y1 :: y2 :: y3 :: y4 :: s1 :: m1 :: m2 :: s2 :: d1 :: d2 :: _ =>
    if isDig y1 && isDig y2 && isDig y3 && isDig y4 && isDelim s1
        && isDig m1 && isDig m2 && isDelim s2 && isDig d1 && isDig d2 then
      some ([y1, y2, y3, y4], [m1, m2], [d1, d2])
    else none
  | _ => none

/-- `re.search` for the delimited-triple pattern: the leftmost position where
it matches, scanning left to right. -/
def searchDelim : List Char → Option (List Char × List Char × List Char)
  | [] => none
  | c :: rest =>
    match delimMatchAt (c :: rest) with
    | some g => some g
    | none => searchDelim rest

/-- One attempt of the contiguous regex `(20[2-9]\d)(\d{4})` at the head of
the list: a four-digit year 2020–2099 immediately followed by four digits.
The class `[2-9]` is the code-point range of `'2'` (50) to `'9'` (57). -/
def contigMatchAt : List Char → Option (List Char × List Char)
  | y1 :: y2 :: y3 :: y4 :: m1 :: m2 :: d1 :: d2 :: _ =>
    if y1 == '2' && y2 == '0' && (50 ≤ y3.toNat && y3.toNat ≤ 57) && isDig y4
        && isDig m1 && isDig m2 && isDig d1 && isDig d2 then
      some ([y1, y2, y3, y4], [m1, m2, d1, d2])
    else none
  | _ => none

/-- `re.search` for the contiguous pattern: leftmost match. -/
def searchContig : List Char → Option (List Char × List Char)
  | [] => none
  | c :: rest =>
    match contigMatchAt (c :: rest) with
    | some g => some g
    | none => searchContig rest

/-- `_is_valid_date` — defined verbatim, character for character, in both
driver scripts: coarse range checks only.  The Python function receives the
regex groups (digit strings) or the integers parsed from them and converts
with `int(...)` inside a `try`; since the groups are always pure digit
strings, that conversion never fails, so the function is embedded on the
parsed integer values. -/
def is_valid_date (y m d : Int) : Bool :=
  if y < 2000 || 2099 < y then false
  else if m < 1 || 12 < m then false
  else if d < 1 || 31 < d then false
  else true

/-- The proleptic-Gregorian leap-year rule used by Python `datetime` (and
written out inline in `calculate_age`). -/
def isLeap (y : Int) : Bool :=
  decide ((y % 4 = 0 ∧ y % 100 ≠ 0) ∨ y % 400 = 0)

/-- Number of days in a month (CPython `datetime._days_in_month`). -/
def daysInMonth (y m : Int) : Int :=
  if m = 2 then (if isLeap y then 29 else 28)
  else if m = 4 ∨ m = 6 ∨ m = 9 ∨ m = 11 then 30
  else 31

/-- Days in the year before the given month (CPython
`datetime._days_before_month`, via the `_DAYS_BEFORE_MONTH` table). -/
def dbmTable (m : Int) : Int :=
  if m ≤ 1 then 0 else if m ≤ 2 then 31 else if m ≤ 3 then 59
  else if m ≤ 4 then 90 else if m ≤ 5 then 120 else if m ≤ 6 then 151
  else if m ≤ 7 then 181 else if m ≤ 8 then 212 else if m ≤ 9 then 243
  else if m ≤ 10 then 273 else if m ≤ 11 then 304 else 334

/-- Days before the first of month `m` of year `y`, counted from January 1. -/
def daysBeforeMonth (y m : Int) : Int :=
  dbmTable m + (if 2 < m ∧ isLeap y = true then 1 else 0)

/-- Days before January 1 of year `y` (CPython `datetime._days_before_year`). -/
def daysBeforeYear (y : Int) : Int :=
  365 * (y - 1) + (y - 1) / 4 - (y - 1) / 100 + (y - 1) / 400

/-- `datetime.toordinal()`: day number in the proleptic Gregorian calendar.
Python compares `datetime` values and subtracts them (`timedelta.days`) by
this ordinal, since the time components are zero here. -/
def toOrdinal (d : Date) : Int :=
  daysBeforeYear d.year + daysBeforeMonth d.year d.month + d.day

/-- The Python `datetime(year, month, day)` constructor: checks the fields
against the real calendar (`_check_date_fields`) and raises `ValueError` —
embedded as `.error` — when the triple is not an actual calendar date. -/
def datetime (y m d : Int) : Except String Date :=
  if y < 1 ∨ 9999 < y then .error "year is out of range"
  else if m < 1 ∨ 12 < m then .error "month must be in 1..12"
  else if d < 1 ∨ daysInMonth y m < d then .error "day is out of range for month"
  else .ok ⟨y, m, d⟩

end BabyPhoto

namespace AddBabyAge

open BabyPhoto

/-- `BIRTH_DATE = datetime(2025, 9, 2)` from `add_baby_age_to_photos.py`. -/
def BIRTH_DATE : Date := ⟨2025, 9, 2⟩

/-- Method 2 of `extract_date_from_filename` in `add_baby_age_to_photos.py`
(lines 40–49): the contiguous year+MMDD fallback.  The matched month-day group
is split as `month_day[:2]` and `month_day[2:]`; on coarse validity the result
is `datetime(year, month, day)`, whose `ValueError` propagates. -/
def method2 (name : List Char) : Except String (Option Date) :=
  match searchContig name with
  | some (ys, mds) =>
    if is_valid_date (strToInt ys) (strToInt (mds.take 2)) (strToInt (mds.drop 2)) then
      Except.map some (datetime (strToInt ys) (strToInt (mds.take 2)) (strToInt (mds.drop 2)))
    else Except.ok none
  | none => Except.ok none

/-- `extract_date_from_filename` from `add_baby_age_to_photos.py` (lines
18–51).  The extension is stripped, the single delimited-triple pattern is
tried first (the `patterns` list in the source holds exactly one pattern); on
a coarse-valid match the result is `datetime(...)` of the parsed groups, and
otherwise control falls through to method 2. -/
def extract_date_from_filename (filename : String) : Except String (Option Date) :=
  match searchDelim (splitextRoot filename.data) with
  | some (ys, ms, ds) =>
    if is_valid_date (strToInt ys) (strToInt ms) (strToInt ds) then
      Except.map some (datetime (strToInt ys) (strToInt ms) (strToInt ds))
    else method2 (splitextRoot filename.data)
  | none => method2 (splitextRoot filename.data)

/-- The post-reference part of `calculate_age` (lines 82–118): raw
year/month/day deltas, day borrowing from the month immediately preceding the
photo month (with the inline 31/30/28-or-29 table and leap test of the
source), month borrowing, and the final `total_months` conversion.  Returns
`(total_months, days)`. -/
def ageParts (photo : Date) : Int × Int :=
  let years := photo.year - BIRTH_DATE.year
  let months := photo.month - BIRTH_DATE.month
  let days := photo.day - BIRTH_DATE.day
  let md : Int × Int :=
    if days < 0 then
      let prevMonth := if photo.month = 1 then 12 else photo.month - 1
      let prevYear := if photo.month = 1 then photo.year - 1 else photo.year
      let daysInPrevMonth :=
        if prevMonth = 1 ∨ prevMonth = 3 ∨ prevMonth = 5 ∨ prevMonth = 7
            ∨ prevMonth = 8 ∨ prevMonth = 10 ∨ prevMonth = 12 then 31
        else if prevMonth = 4 ∨ prevMonth = 6 ∨ prevMonth = 9 ∨ prevMonth = 11 then 30
        else if (prevYear % 4 = 0 ∧ prevYear % 100 ≠ 0) ∨ prevYear % 400 = 0 then 29
        else 28
      (months - 1, daysInPrevMonth + days)
    else (months, days)
  let ym : Int × Int :=
    if md.1 < 0 then (years - 1, md.1 + 12) else (years, md.1)
  (ym.1 * 12 + ym.2, md.2)

/-- `calculate_age` from `add_baby_age_to_photos.py` (lines 71–125).  The
comparison `photo_date < BIRTH_DATE` and the subtraction
`(BIRTH_DATE - photo_date).days` are Python `datetime` operations, i.e. they
act on the ordinal day number.  Rendering matches the f-strings of the
source. -/
def calculate_age (photo : Date) : String :=
  if toOrdinal photo < toOrdinal BIRTH_DATE then
    "距离出生" ++ toString (toOrdinal BIRTH_DATE - toOrdinal photo) ++ "天"
  else
    let p := ageParts photo
    if p.1 = 0 then toString p.2 ++ "天"
    else if p.2 = 0 then toString p.1 ++ "个月"
    else toString p.1 ++ "个月" ++ toString p.2 ++ "天"

end AddBabyAge

namespace AddTimestamp

open BabyPhoto

/-- Method 2 of `extract_date_from_filename` in `add_timestamp_to_photos.py`
(lines 34–44): same contiguous fallback, but the result is the f-string
`"{year}.{month}.{day}"` built from the matched digit substrings. -/
def method2 (name : List Char) : Option String :=
  match searchContig name with
  | some (ys, mds) =>
    if is_valid_date (strToInt ys) (strToInt (mds.take 2)) (strToInt (mds.drop 2)) then
      some (String.mk (ys ++ '.' :: mds.take 2 ++ '.' :: mds.drop 2))
    else none
  | none => none

/-- `extract_date_from_filename` from `add_timestamp_to_photos.py` (lines
12–46): identical extraction and validation to the age script, but the
returned value is the matched groups re-joined with dots. -/
def extract_date_from_filename (filename : String) : Option String :=
  match searchDelim (splitextRoot filename.data) with
  | some (ys, ms, ds) =>
    if is_valid_date (strToInt ys) (strToInt ms) (strToInt ds) then
      some (String.mk (ys ++ '.' :: ms ++ '.' :: ds))
    else method2 (splitextRoot filename.data)
  | none => method2 (splitextRoot filename.data)

end AddTimestamp

namespace BabyPhoto

/-- The decimal digit character of `n` in a given position, used to state
zero-padded rendering: the low two digits `[tens, ones]`. -/
def pad2 (n : Nat) : List Char :=
  [Nat.digitChar (n / 10 % 10), Nat.digitChar (n % 10)]

/-- The low four decimal digits of `n`, zero-padded. -/
def pad4 (n : Nat) : List Char :=
  [Nat.digitChar (n / 1000 % 10), Nat.digitChar (n / 100 % 10),
    Nat.digitChar (n / 10 % 10), Nat.digitChar (n % 10)]

/-- Modelled from the spec: the DateFormatter contract
`"{year}.{zero-padded month}.{zero-padded day}"` — the rendering the
timestamp script applies to an extracted date (the script itself inlines the
f-string on the regex groups; this is the same rendering expressed on the
`Date` value). -/
def renderDate (d : Date) : String :=
  String.mk (pad4 d.year.toNat ++ '.' :: pad2 d.month.toNat ++ '.' :: pad2 d.day.toNat)

/-- The relation between a string the timestamp script returns and the date
it denotes: the string is the dot-joining of the matched digit groups
(widths 4, 2 and 2, decimal digits of any script) whose parsed values are
the date's fields — and when all the digits are ASCII, the string is exactly
the zero-padded rendering of the date.  (On non-ASCII digit groups, e.g.
full-width digits, the verbatim string differs from the rendering.) -/
def groupsRender (t : String) (dt : Date) : Prop :=
  ∃ ys ms ds : List Char,
    t = String.mk (ys ++ '.' :: ms ++ '.' :: ds)
    ∧ ys.length = 4 ∧ ms.length = 2 ∧ ds.length = 2
    ∧ ys.all isDig = true ∧ ms.all isDig = true ∧ ds.all isDig = true
    ∧ strToInt ys = dt.year ∧ strToInt ms = dt.month ∧ strToInt ds = dt.day
    ∧ ((ys ++ ms ++ ds).all isAsciiDig = true → t = renderDate dt)

/-- All positions where the delimited-triple pattern matches, leftmost first:
the groups of every delimited date occurring anywhere in the text. -/
def delimSites (l : List Char) : List (List Char × List Char × List Char) :=
  l.tails.filterMap delimMatchAt

/-- All positions where the contiguous pattern matches, leftmost first. -/
def contigSites (l : List Char) : List (List Char × List Char) :=
  l.tails.filterMap contigMatchAt

/-- The dates of all delimited-triple matches in a filename (after extension
stripping), whether or not they pass range validation. -/
def delimDatesIn (s : String) : List Date :=
  (delimSites (splitextRoot s.data)).map
    (fun g => ⟨strToInt g.1, strToInt g.2.1, strToInt g.2.2⟩)

/-- A range-valid delimited triple occurs somewhere in the filename. -/
def hasValidDelim (s : String) : Bool :=
  (delimSites (splitextRoot s.data)).any
    (fun g => is_valid_date (strToInt g.1) (strToInt g.2.1) (strToInt g.2.2))

/-- A range-valid contiguous year+MMDD pattern occurs somewhere in the
filename. -/
def hasValidContig (s : String) : Bool :=
  (contigSites (splitextRoot s.data)).any
    (fun g => is_valid_date (strToInt g.1) (strToInt (g.2.take 2)) (strToInt (g.2.drop 2)))

end BabyPhoto

namespace Spec

open BabyPhoto

/-- The fixed reference ("birth") date of the spec, `2025-09-02`. -/
def referenceDate : Date := ⟨2025, 9, 2⟩

/-- The month-length table as the spec states it for the age algorithm:
"31/30/28-or-29 table, leap rule — divisible by 4 and not 100, or by 400 —
applied to the year owning that month". -/
def monthLength (y m : Int) : Int :=
  if m = 4 ∨ m = 6 ∨ m = 9 ∨ m = 11 then 30
  else if m = 2 then (if (y % 4 = 0 ∧ y % 100 ≠ 0) ∨ y % 400 = 0 then 29 else 28)
  else 31

/-- Steps 2–5 of the spec's post-reference age algorithm: raw year/month/day
deltas, day borrowing from the month immediately preceding the photo month
(owned by the previous year when the photo month is January), month
borrowing, and `totalMonths = years * 12 + months`.  Returns
`(totalMonths, days)`. -/
def ageNumbers (photo : Date) : Int × Int :=
  let years := photo.year - referenceDate.year
  let months := photo.month - referenceDate.month
  let days := photo.day - referenceDate.day
  let prevMonth := if photo.month = 1 then 12 else photo.month - 1
  let prevYear := if photo.month = 1 then photo.year - 1 else photo.year
  let md : Int × Int :=
    if days < 0 then (months - 1, days + monthLength prevYear prevMonth)
    else (months, days)
  let ym : Int × Int :=
    if md.1 < 0 then (years - 1, md.1 + 12) else (years, md.1)
  (ym.1 * 12 + ym.2, md.2)

/-- Step 6 of the spec's age algorithm on top of `ageNumbers`: render
`"{days}天"` when `totalMonths = 0`, `"{totalMonths}个月"` when `days = 0`,
and `"{totalMonths}个月{days}天"` otherwise. -/
def describe (photo : Date) : String :=
  let p := ageNumbers photo
  if p.1 = 0 then toString p.2 ++ "天"
  else if p.2 = 0 then toString p.1 ++ "个月"
  else toString p.1 ++ "个月" ++ toString p.2 ++ "天"

/-- A real proleptic-Gregorian calendar date: the day exists in its month. -/
def realValid (d : Date) : Prop :=
  1 ≤ d.month ∧ d.month ≤ 12 ∧ 1 ≤ d.day ∧ d.day ≤ daysInMonth d.year d.month

instance (d : Date) : Decidable (realValid d) := by
  unfold realValid; infer_instance

/-- The next calendar day: the independent, step-by-step notion of "one
elapsed day" against which the program's ordinal subtraction is checked. -/
def nextDay (d : Date) : Date :=
  if d.day < daysInMonth d.year d.month then ⟨d.year, d.month, d.day + 1⟩
  else if d.month < 12 then ⟨d.year, d.month + 1, 1⟩
  else ⟨d.year + 1, 1, 1⟩

end Spec

namespace BabyPhoto

/-- Every month of the table has between 28 and 31 days. -/
lemma daysInMonth_bounds (y m : Int) : 28 ≤ daysInMonth y m ∧ daysInMonth y m ≤ 31 := by
  unfold daysInMonth
  split_ifs <;> omega

/-- `daysBeforeMonth` lies between 0 and 335 for real months. -/
lemma daysBeforeMonth_bounds (y m : Int) (h1 : 1 ≤ m) (h2 : m ≤ 12) :
    0 ≤ daysBeforeMonth y m ∧ daysBeforeMonth y m ≤ 335 := by
  rcases hl : isLeap y with _ | _ <;>
    interval_cases m <;>
      norm_num [daysBeforeMonth, dbmTable, hl]

/-- Cumulative month table: days before month `m + 1` are the days before
month `m` plus the length of month `m`. -/
lemma daysBeforeMonth_succ (y m : Int) (h1 : 1 ≤ m) (h2 : m ≤ 11) :
    daysBeforeMonth y (m + 1) = daysBeforeMonth y m + daysInMonth y m := by
  rcases hl : isLeap y with _ | _ <;>
    interval_cases m <;>
      norm_num [daysBeforeMonth, dbmTable, daysInMonth, hl]

/-- Days before year `y + 1`: one year of 365 days plus the leap day. -/
lemma daysBeforeYear_succ (y : Int) :
    daysBeforeYear (y + 1)
      = daysBeforeYear y + 365 + (if isLeap y = true then 1 else 0) := by
  unfold daysBeforeYear
  by_cases hl : isLeap y = true
  · rw [if_pos hl]
    unfold isLeap at hl
    rw [decide_eq_true_eq] at hl
    omega
  · rw [if_neg hl]
    unfold isLeap at hl
    rw [decide_eq_true_eq] at hl
    omega

/-- Stepping to the next calendar day increments the ordinal by one. -/
lemma toOrdinal_nextDay (d : Date) (h : Spec.realValid d) :
    toOrdinal (Spec.nextDay d) = toOrdinal d + 1 := by
  obtain ⟨h1, h2, h3, h4⟩ := h
  unfold Spec.nextDay
  split_ifs with hd hm
  · simp only [toOrdinal]
    omega
  · have hday : d.day = daysInMonth d.year d.month := by omega
    simp only [toOrdinal]
    rw [daysBeforeMonth_succ d.year d.month h1 (by omega)]
    omega
  · have hm12 : d.month = 12 := by omega
    have hday : d.day = 31 := by
      have h31 : daysInMonth d.year d.month = 31 := by
        rw [hm12]; norm_num [daysInMonth]
      omega
    simp only [toOrdinal, hm12, hday]
    rw [daysBeforeYear_succ]
    have hdbm13 : daysBeforeMonth d.year 12
        = 334 + (if isLeap d.year = true then 1 else 0) := by
      norm_num [daysBeforeMonth, dbmTable]
    have hdbm1 : daysBeforeMonth (d.year + 1) 1 = 0 := by
      norm_num [daysBeforeMonth, dbmTable]
    rw [hdbm13, hdbm1]
    split_ifs <;> omega

/-- `nextDay` preserves calendar validity. -/
lemma nextDay_valid (d : Date) (h : Spec.realValid d) : Spec.realValid (Spec.nextDay d) := by
  obtain ⟨h1, h2, h3, h4⟩ := h
  unfold Spec.nextDay Spec.realValid
  split_ifs with hd hm
  · refine ⟨?_, ?_, ?_, ?_⟩ <;> dsimp only <;> omega
  · refine ⟨?_, ?_, ?_, ?_⟩ <;> dsimp only <;>
      [skip; skip; skip; have := daysInMonth_bounds d.year (d.month + 1)] <;> omega
  · refine ⟨?_, ?_, ?_, ?_⟩ <;> dsimp only <;>
      [skip; skip; skip; have := daysInMonth_bounds (d.year + 1) 1] <;> omega

/-- Iterating `nextDay` `n` times advances the ordinal by exactly `n`. -/
lemma toOrdinal_iterate (n : Nat) :
    ∀ d : Date, Spec.realValid d → toOrdinal (Spec.nextDay^[n] d) = toOrdinal d + n := by
  induction n with
  | zero => intro d _; simp
  | succ k ih =>
    intro d hv
    rw [Function.iterate_succ_apply]
    rw [ih (Spec.nextDay d) (nextDay_valid d hv), toOrdinal_nextDay d hv]
    omega

/-- Any coarse-valid date lexicographically before 2025-09-02 has a smaller
ordinal. -/
lemma toOrdinal_lt_ref (d : Date) (hy1 : 2000 ≤ d.year)
    (hm1 : 1 ≤ d.month) (hm2 : d.month ≤ 12) (hd1 : 1 ≤ d.day) (hd2 : d.day ≤ 31)
    (h : d.year < 2025 ∨ (d.year = 2025 ∧ d.month < 9)
      ∨ (d.year = 2025 ∧ d.month = 9 ∧ d.day < 2)) :
    toOrdinal d < toOrdinal Spec.referenceDate := by
  have href : toOrdinal Spec.referenceDate = 739496 := by decide
  rcases d with ⟨y, m, day⟩
  simp only [toOrdinal] at *
  rcases h with hy | ⟨hy, hm⟩ | ⟨hy, hm, hd⟩
  · have hdbm := daysBeforeMonth_bounds y m hm1 hm2
    have hdby : daysBeforeYear y ≤ 738885 := by
      unfold daysBeforeYear
      omega
    omega
  · subst hy
    have hl : isLeap (2025 : Int) = false := by decide
    have hdbm : daysBeforeMonth 2025 m ≤ 212 := by
      interval_cases m <;> norm_num [daysBeforeMonth, dbmTable, hl]
    have hdby : daysBeforeYear 2025 = 739251 := by decide
    omega
  · subst hy
    subst hm
    have hdbm : daysBeforeMonth 2025 9 = 243 := by decide
    have hdby : daysBeforeYear 2025 = 739251 := by decide
    omega

end BabyPhoto

open BabyPhoto in
/-- C5: for every coarse-valid date strictly after the reference date
2025-09-02, the post-borrowing numbers of `calculate_age` — the pair
`(total_months, days)` computed by `ageParts` — satisfy `0 ≤ total_months`
and `0 ≤ days < 31`. -/
theorem c5_post_borrow_invariant (d : Date)
    (hy1 : 2000 ≤ d.year) (hy2 : d.year ≤ 2099)
    (hm1 : 1 ≤ d.month) (hm2 : d.month ≤ 12)
    (hd1 : 1 ≤ d.day) (hd2 : d.day ≤ 31)
    (h : toOrdinal Spec.referenceDate < toOrdinal d) :
    0 ≤ (AddBabyAge.ageParts d).1 ∧ 0 ≤ (AddBabyAge.ageParts d).2
      ∧ (AddBabyAge.ageParts d).2 < 31 := by
  have key : ¬(d.year < 2025 ∨ (d.year = 2025 ∧ d.month < 9)
      ∨ (d.year = 2025 ∧ d.month = 9 ∧ d.day < 2)) := by
    intro hlt
    have := toOrdinal_lt_ref d hy1 hm1 hm2 hd1 hd2 hlt
    omega
  rcases d with ⟨y, m, day⟩
  simp only at *
  simp only [AddBabyAge.ageParts, AddBabyAge.BIRTH_DATE]
  by_cases hm : m = 1
  · subst hm
    norm_num
    split_ifs <;> dsimp only <;> omega
  · simp only [if_neg hm]
    interval_cases m <;>
      first
        | exact absurd rfl hm
        | · norm_num
            split_ifs <;> dsimp only <;> omega

/-- C5 witness at the concrete date 2025-10-01. -/
theorem c5_post_borrow_invariant_witness :
    0 ≤ (AddBabyAge.ageParts ⟨2025, 10, 1⟩).1
      ∧ 0 ≤ (AddBabyAge.ageParts ⟨2025, 10, 1⟩).2
      ∧ (AddBabyAge.ageParts ⟨2025, 10, 1⟩).2 < 31 :=
  c5_post_borrow_invariant ⟨2025, 10, 1⟩ (by decide) (by decide) (by decide)
    (by decide) (by decide) (by decide) (by decide)

open BabyPhoto in
/-- The inline borrowing arithmetic of `calculate_age` computes exactly the
numbers of the spec's reference algorithm, for any real month. -/
lemma ageParts_eq_ageNumbers (d : Date) (hm1 : 1 ≤ d.month) (hm2 : d.month ≤ 12) :
    AddBabyAge.ageParts d = Spec.ageNumbers d := by
  rcases d with ⟨y, m, day⟩
  simp only at *
  simp only [AddBabyAge.ageParts, AddBabyAge.BIRTH_DATE, Spec.ageNumbers,
    Spec.referenceDate, Spec.monthLength]
  by_cases hm : m = 1
  · subst hm
    norm_num
    split_ifs <;> dsimp only <;> simp only [Prod.mk.injEq, true_and, and_true] <;> omega
  · simp only [if_neg hm]
    interval_cases m <;>
      first
        | exact absurd rfl hm
        | · norm_num
            split_ifs <;> dsimp only <;> simp only [Prod.mk.injEq, true_and, and_true] <;> omega

open BabyPhoto in
/-- C4: for every date with a real month on or after the reference date
2025-09-02, `calculate_age` returns exactly the label of the spec's reference
algorithm (raw deltas, day borrowing from the month preceding the photo
month with the 31/30/28-or-29 table and leap rule, month borrowing,
`totalMonths = years * 12 + months`, and the three-way rendering). -/
theorem c4_describe_matches_reference_algorithm (d : Date)
    (hm1 : 1 ≤ d.month) (hm2 : d.month ≤ 12)
    (h : toOrdinal Spec.referenceDate ≤ toOrdinal d) :
    AddBabyAge.calculate_age d = Spec.describe d := by
  unfold AddBabyAge.calculate_age Spec.describe
  have hb : ¬ (toOrdinal d < toOrdinal AddBabyAge.BIRTH_DATE) := by
    have he : toOrdinal AddBabyAge.BIRTH_DATE = toOrdinal Spec.referenceDate := rfl
    omega
  rw [if_neg hb, ageParts_eq_ageNumbers d hm1 hm2]

/-- C4 witness: at 2025-10-01 both the program and the reference algorithm
yield "29天" (day borrowing from 30-day September). -/
theorem c4_describe_matches_reference_algorithm_witness :
    AddBabyAge.calculate_age ⟨2025, 10, 1⟩ = "29天" :=
  (c4_describe_matches_reference_algorithm ⟨2025, 10, 1⟩ (by decide) (by decide)
    (by decide)).trans (by decide)

open BabyPhoto in
/-- C7: for every real calendar date strictly before the reference date
2025-09-02, `calculate_age` renders "距离出生{N}天" where `N` is the exact
number of elapsed calendar days from the photo date to the reference date —
i.e. the number of `nextDay` steps needed to reach the reference date. -/
theorem c7_days_before_birth (d : Date) (n : Nat) (hv : Spec.realValid d)
    (hlt : toOrdinal d < toOrdinal AddBabyAge.BIRTH_DATE)
    (hn : Spec.nextDay^[n] d = AddBabyAge.BIRTH_DATE) :
    AddBabyAge.calculate_age d = "距离出生" ++ toString n ++ "天" := by
  have e := toOrdinal_iterate n d hv
  rw [hn] at e
  unfold AddBabyAge.calculate_age
  rw [if_pos hlt]
  have hsub : toOrdinal AddBabyAge.BIRTH_DATE - toOrdinal d = (n : Int) := by omega
  rw [hsub]
  rfl

/-- C7 witness: 2025-08-20 is 13 calendar days before the birth date. -/
theorem c7_days_before_birth_witness :
    AddBabyAge.calculate_age ⟨2025, 8, 20⟩ = "距离出生13天" :=
  (c7_days_before_birth ⟨2025, 8, 20⟩ 13 (by decide) (by decide) (by decide)).trans
    (by decide)

namespace BabyPhoto

/-- Characters are determined by their code points. -/
lemma char_eq_of_toNat_eq {a b : Char} (h : a.toNat = b.toNat) : a = b := by
  apply Char.eq_of_val_eq
  apply UInt32.toNat.inj
  exact h

/-- An ASCII digit has code point between 48 and 57. -/
lemma isAsciiDig_bounds {c : Char} (h : isAsciiDig c = true) :
    48 ≤ c.toNat ∧ c.toNat ≤ 57 := by
  simpa [isAsciiDig] using h

/-- An ASCII digit is a decimal digit: the ASCII block heads `ndStarts`. -/
lemma isDig_of_ascii {c : Char} (h : isAsciiDig c = true) : isDig c = true := by
  obtain ⟨h1, h2⟩ := isAsciiDig_bounds h
  simp only [isDig, ndStarts, List.any_cons, List.any_nil, Bool.or_eq_true,
    Bool.and_eq_true, decide_eq_true_eq]
  omega

/-- Every digit value is below ten: the digit sits in a ten-code-point
block. -/
lemma digitVal_lt (c : Char) : digitVal c < 10 := by
  unfold digitVal
  cases hf : ndStarts.find? (fun s => s ≤ c.toNat && c.toNat ≤ s + 9) with
  | none =>
    dsimp only
    omega
  | some s =>
    have hp := List.find?_some hf
    simp only [Bool.and_eq_true, decide_eq_true_eq] at hp
    dsimp only
    omega

/-- On an ASCII digit the value is the offset from code point 48. -/
lemma digitVal_ascii {c : Char} (h : isAsciiDig c = true) :
    digitVal c = c.toNat - 48 := by
  obtain ⟨h1, h2⟩ := isAsciiDig_bounds h
  unfold digitVal ndStarts
  rw [List.find?_cons_of_pos]
  simp only [Bool.and_eq_true, decide_eq_true_eq]
  omega

/-- `Nat.digitChar` inverts the code-point offset of an ASCII digit. -/
lemma digitChar_of {c : Char} (h : isAsciiDig c = true) :
    Nat.digitChar (c.toNat - 48) = c := by
  obtain ⟨h1, h2⟩ := isAsciiDig_bounds h
  apply char_eq_of_toNat_eq
  have h10 : c.toNat = 48 ∨ c.toNat = 49 ∨ c.toNat = 50 ∨ c.toNat = 51 ∨ c.toNat = 52
      ∨ c.toNat = 53 ∨ c.toNat = 54 ∨ c.toNat = 55 ∨ c.toNat = 56 ∨ c.toNat = 57 := by
    omega
  rcases h10 with h | h | h | h | h | h | h | h | h | h <;> rw [h] <;> rfl

/-- The value `int` gives to a two-digit string. -/
lemma strToNat_two (a b : Char) :
    strToNat [a, b] = 10 * digitVal a + digitVal b := by
  unfold strToNat
  simp only [List.foldl]
  omega

/-- The value `int` gives to a four-digit string. -/
lemma strToNat_four (a b c d : Char) :
    strToNat [a, b, c, d]
      = 1000 * digitVal a + 100 * digitVal b + 10 * digitVal c + digitVal d := by
  unfold strToNat
  simp only [List.foldl]
  omega

/-- Zero-padded two-digit rendering inverts parsing on ASCII digit strings. -/
lemma pad2_digits {a b : Char} (ha : isAsciiDig a = true) (hb : isAsciiDig b = true) :
    pad2 (strToNat [a, b]) = [a, b] := by
  obtain ⟨ha1, ha2⟩ := isAsciiDig_bounds ha
  obtain ⟨hb1, hb2⟩ := isAsciiDig_bounds hb
  rw [strToNat_two, digitVal_ascii ha, digitVal_ascii hb]
  unfold pad2
  have e1 : (10 * (a.toNat - 48) + (b.toNat - 48)) / 10 % 10 = a.toNat - 48 := by omega
  have e2 : (10 * (a.toNat - 48) + (b.toNat - 48)) % 10 = b.toNat - 48 := by omega
  rw [e1, e2, digitChar_of ha, digitChar_of hb]

/-- Zero-padded four-digit rendering inverts parsing on ASCII digit
strings. -/
lemma pad4_digits {a b c d : Char} (ha : isAsciiDig a = true) (hb : isAsciiDig b = true)
    (hc : isAsciiDig c = true) (hd : isAsciiDig d = true) :
    pad4 (strToNat [a, b, c, d]) = [a, b, c, d] := by
  obtain ⟨ha1, ha2⟩ := isAsciiDig_bounds ha
  obtain ⟨hb1, hb2⟩ := isAsciiDig_bounds hb
  obtain ⟨hc1, hc2⟩ := isAsciiDig_bounds hc
  obtain ⟨hd1, hd2⟩ := isAsciiDig_bounds hd
  rw [strToNat_four, digitVal_ascii ha, digitVal_ascii hb, digitVal_ascii hc,
    digitVal_ascii hd]
  unfold pad4
  have e1 : (1000 * (a.toNat - 48) + 100 * (b.toNat - 48) + 10 * (c.toNat - 48)
      + (d.toNat - 48)) / 1000 % 10 = a.toNat - 48 := by omega
  have e2 : (1000 * (a.toNat - 48) + 100 * (b.toNat - 48) + 10 * (c.toNat - 48)
      + (d.toNat - 48)) / 100 % 10 = b.toNat - 48 := by omega
  have e3 : (1000 * (a.toNat - 48) + 100 * (b.toNat - 48) + 10 * (c.toNat - 48)
      + (d.toNat - 48)) / 10 % 10 = c.toNat - 48 := by omega
  have e4 : (1000 * (a.toNat - 48) + 100 * (b.toNat - 48) + 10 * (c.toNat - 48)
      + (d.toNat - 48)) % 10 = d.toNat - 48 := by omega
  rw [e1, e2, e3, e4, digitChar_of ha, digitChar_of hb, digitChar_of hc, digitChar_of hd]

/-- Rendering the date parsed from ASCII digit groups reproduces the groups
joined with dots — for ASCII matches, the exact string the timestamp script
builds. -/
lemma renderDate_groups {y1 y2 y3 y4 m1 m2 d1 d2 : Char}
    (hy1 : isAsciiDig y1 = true) (hy2 : isAsciiDig y2 = true)
    (hy3 : isAsciiDig y3 = true) (hy4 : isAsciiDig y4 = true)
    (hm1 : isAsciiDig m1 = true) (hm2 : isAsciiDig m2 = true)
    (hd1 : isAsciiDig d1 = true) (hd2 : isAsciiDig d2 = true) :
    renderDate ⟨strToInt [y1, y2, y3, y4], strToInt [m1, m2], strToInt [d1, d2]⟩
      = String.mk ([y1, y2, y3, y4] ++ '.' :: [m1, m2] ++ '.' :: [d1, d2]) := by
  unfold renderDate strToInt
  dsimp only
  rw [Int.toNat_ofNat, Int.toNat_ofNat, Int.toNat_ofNat]
  rw [pad4_digits hy1 hy2 hy3 hy4, pad2_digits hm1 hm2, pad2_digits hd1 hd2]

/-- Inversion of a delimited-triple match: the groups are digit strings of
widths 4, 2 and 2. -/
lemma delimMatchAt_shape {l : List Char} {r : List Char × List Char × List Char}
    (h : delimMatchAt l = some r) :
    ∃ y1 y2 y3 y4 m1 m2 d1 d2,
      r = ([y1, y2, y3, y4], [m1, m2], [d1, d2])
      ∧ isDig y1 = true ∧ isDig y2 = true ∧ isDig y3 = true ∧ isDig y4 = true
      ∧ isDig m1 = true ∧ isDig m2 = true ∧ isDig d1 = true ∧ isDig d2 = true := by
  unfold delimMatchAt at h
  split at h
  · rename_i y1 y2 y3 y4 s1 m1 m2 s2 d1 d2 rest
    split at h
    · rename_i hc
      injection h with h
      subst h
      simp only [Bool.and_eq_true] at hc
      obtain ⟨⟨⟨⟨⟨⟨⟨⟨⟨h1, h2⟩, h3⟩, h4⟩, hs1⟩, h5⟩, h6⟩, hs2⟩, h7⟩, h8⟩ := hc
      exact ⟨y1, y2, y3, y4, m1, m2, d1, d2, rfl, h1, h2, h3, h4, h5, h6, h7, h8⟩
    · exact Option.noConfusion h
  · exact Option.noConfusion h

/-- Inversion of a contiguous match: the year group is `20[2-9]\d` (hence a
digit string) and the month-day group is a four-digit string. -/
lemma contigMatchAt_shape {l : List Char} {r : List Char × List Char}
    (h : contigMatchAt l = some r) :
    ∃ y1 y2 y3 y4 m1 m2 d1 d2,
      r = ([y1, y2, y3, y4], [m1, m2, d1, d2])
      ∧ isDig y1 = true ∧ isDig y2 = true ∧ isDig y3 = true ∧ isDig y4 = true
      ∧ isDig m1 = true ∧ isDig m2 = true ∧ isDig d1 = true ∧ isDig d2 = true := by
  unfold contigMatchAt at h
  split at h
  · rename_i y1 y2 y3 y4 m1 m2 d1 d2 rest
    split at h
    · rename_i hc
      injection h with h
      subst h
      simp only [Bool.and_eq_true, beq_iff_eq, decide_eq_true_eq] at hc
      obtain ⟨⟨⟨⟨⟨⟨⟨he1, he2⟩, ⟨hy3a, hy3b⟩⟩, h4⟩, h5⟩, h6⟩, h7⟩, h8⟩ := hc
      subst he1
      subst he2
      refine ⟨'2', '0', y3, y4, m1, m2, d1, d2, rfl, by decide, by decide, ?_,
        h4, h5, h6, h7, h8⟩
      apply isDig_of_ascii
      simp only [isAsciiDig, Bool.and_eq_true, decide_eq_true_eq]
      omega
    · exact Option.noConfusion h
  · exact Option.noConfusion h

/-- The leftmost delimited match is a match at some position. -/
lemma searchDelim_matchAt {l : List Char} {r : List Char × List Char × List Char}
    (h : searchDelim l = some r) : ∃ t, delimMatchAt t = some r := by
  induction l with
  | nil => exact Option.noConfusion h
  | cons c rest ih =>
    unfold searchDelim at h
    split at h
    · rename_i g hg
      injection h with h
      subst h
      exact ⟨c :: rest, hg⟩
    · exact ih h

/-- The leftmost contiguous match is a match at some position. -/
lemma searchContig_matchAt {l : List Char} {r : List Char × List Char}
    (h : searchContig l = some r) : ∃ t, contigMatchAt t = some r := by
  induction l with
  | nil => exact Option.noConfusion h
  | cons c rest ih =>
    unfold searchContig at h
    split at h
    · rename_i g hg
      injection h with h
      subst h
      exact ⟨c :: rest, hg⟩
    · exact ih h

/-- When the `datetime` constructor succeeds it returns exactly its field
values. -/
lemma datetime_ok {y m d : Int} {dt : Date} (h : datetime y m d = Except.ok dt) :
    dt = ⟨y, m, d⟩ := by
  unfold datetime at h
  split_ifs at h <;>
    first
      | exact Except.noConfusion h
      | (injection h with h; exact h.symm)

/-- `_is_valid_date` holds exactly on the coarse ranges: year 2000–2099,
month 1–12, day 1–31 — and nothing else is checked. -/
lemma is_valid_date_iff (y m d : Int) :
    is_valid_date y m d = true
      ↔ (2000 ≤ y ∧ y ≤ 2099 ∧ 1 ≤ m ∧ m ≤ 12 ∧ 1 ≤ d ∧ d ≤ 31) := by
  constructor
  · intro h
    unfold is_valid_date at h
    split_ifs at h with h1 h2 h3 <;>
      first
        | exact absurd h Bool.false_ne_true
        | (simp only [Bool.or_eq_true, decide_eq_true_eq, not_or, not_lt] at h1 h2 h3
           omega)
  · intro hh
    unfold is_valid_date
    rw [if_neg (by simp only [Bool.or_eq_true, decide_eq_true_eq, not_or, not_lt]; omega)]
    rw [if_neg (by simp only [Bool.or_eq_true, decide_eq_true_eq, not_or, not_lt]; omega)]
    rw [if_neg (by simp only [Bool.or_eq_true, decide_eq_true_eq, not_or, not_lt]; omega)]

/-- When range validation succeeded, a successful `datetime` construction
returns a date whose fields satisfy the coarse ranges. -/
lemma valid_case_ranges {Y M D : Int} {dt : Date} (hv : is_valid_date Y M D = true)
    (h : Except.map some (datetime Y M D) = Except.ok (some dt)) :
    2000 ≤ dt.year ∧ dt.year ≤ 2099 ∧ 1 ≤ dt.month ∧ dt.month ≤ 12
      ∧ 1 ≤ dt.day ∧ dt.day ≤ 31 := by
  cases hmk : datetime Y M D with
  | error e =>
    rw [hmk] at h
    simp only [Except.map] at h
    exact Except.noConfusion h
  | ok dd =>
    rw [hmk] at h
    simp only [Except.map] at h
    injection h with h
    injection h with h
    have hdd := datetime_ok hmk
    rw [← h, hdd]
    dsimp only
    exact (is_valid_date_iff Y M D).mp hv

/-- Any date the age script's contiguous fallback returns satisfies the
coarse ranges. -/
lemma method2_ranges {name : List Char} {dt : Date}
    (h : AddBabyAge.method2 name = Except.ok (some dt)) :
    2000 ≤ dt.year ∧ dt.year ≤ 2099 ∧ 1 ≤ dt.month ∧ dt.month ≤ 12
      ∧ 1 ≤ dt.day ∧ dt.day ≤ 31 := by
  unfold AddBabyAge.method2 at h
  split at h
  · rename_i ys mds heq
    split at h
    · rename_i hv
      exact valid_case_ranges hv h
    · injection h with h
      exact Option.noConfusion h
  · injection h with h
    exact Option.noConfusion h

end BabyPhoto

open BabyPhoto in
/-- C8: every date the age script's extractor returns satisfies year in
[2000, 2099], month in [1, 12], day in [1, 31]; and `_is_valid_date` checks
exactly those coarse ranges — no day-per-month legality is part of
validation, so day 31 passes for every month (e.g. April 31). -/
theorem c8_coarse_range_validation :
    (∀ (s : String) (dt : Date),
      AddBabyAge.extract_date_from_filename s = Except.ok (some dt) →
        2000 ≤ dt.year ∧ dt.year ≤ 2099 ∧ 1 ≤ dt.month ∧ dt.month ≤ 12
          ∧ 1 ≤ dt.day ∧ dt.day ≤ 31)
    ∧ (∀ y m d : Int, is_valid_date y m d = true
        ↔ (2000 ≤ y ∧ y ≤ 2099 ∧ 1 ≤ m ∧ m ≤ 12 ∧ 1 ≤ d ∧ d ≤ 31)) := by
  constructor
  · intro s dt h
    unfold AddBabyAge.extract_date_from_filename at h
    split at h
    · rename_i ys ms ds heq
      split at h
      · rename_i hv
        exact valid_case_ranges hv h
      · exact method2_ranges h
    · exact method2_ranges h
  · exact is_valid_date_iff

/-- C8 witness: the date extracted from "IMG_2022.09.21.jpg" is in range,
and the triple 2025-04-31 (day 31 in 30-day April) passes validation. -/
theorem c8_coarse_range_validation_witness :
    (2000 ≤ (⟨2022, 9, 21⟩ : BabyPhoto.Date).year
      ∧ (⟨2022, 9, 21⟩ : BabyPhoto.Date).year ≤ 2099
      ∧ 1 ≤ (⟨2022, 9, 21⟩ : BabyPhoto.Date).month
      ∧ (⟨2022, 9, 21⟩ : BabyPhoto.Date).month ≤ 12
      ∧ 1 ≤ (⟨2022, 9, 21⟩ : BabyPhoto.Date).day
      ∧ (⟨2022, 9, 21⟩ : BabyPhoto.Date).day ≤ 31)
    ∧ BabyPhoto.is_valid_date 2025 4 31 = true :=
  ⟨c8_coarse_range_validation.1 "IMG_2022.09.21.jpg" ⟨2022, 9, 21⟩ (by decide),
    (c8_coarse_range_validation.2 2025 4 31).mpr (by decide)⟩

namespace BabyPhoto

/-- The dot-joined digit groups stand in the `groupsRender` relation to the
date parsed from them. -/
lemma groups_groupsRender {y1 y2 y3 y4 m1 m2 d1 d2 : Char}
    (h1 : isDig y1 = true) (h2 : isDig y2 = true) (h3 : isDig y3 = true)
    (h4 : isDig y4 = true) (h5 : isDig m1 = true) (h6 : isDig m2 = true)
    (h7 : isDig d1 = true) (h8 : isDig d2 = true) :
    groupsRender (String.mk ([y1, y2, y3, y4] ++ '.' :: [m1, m2] ++ '.' :: [d1, d2]))
      ⟨strToInt [y1, y2, y3, y4], strToInt [m1, m2], strToInt [d1, d2]⟩ := by
  refine ⟨[y1, y2, y3, y4], [m1, m2], [d1, d2], rfl, rfl, rfl, rfl,
    ?_, ?_, ?_, rfl, rfl, rfl, ?_⟩
  · simp [h1, h2, h3, h4]
  · simp [h5, h6]
  · simp [h7, h8]
  · intro hA
    have hall : ∀ c ∈ ([y1, y2, y3, y4] ++ [m1, m2] ++ [d1, d2]),
        isAsciiDig c = true := by
      simpa [List.all_eq_true] using hA
    exact (renderDate_groups (hall y1 (by simp)) (hall y2 (by simp))
      (hall y3 (by simp)) (hall y4 (by simp)) (hall m1 (by simp))
      (hall m2 (by simp)) (hall d1 (by simp)) (hall d2 (by simp))).symm

/-- The behaviour pair of the two scripts on a validated match: the age side
holds `Except.map some (datetime ...)` of the parsed groups, the timestamp
side the dot-joined groups.  They agree up to the `datetime` raise, with the
timestamp string related to the returned date by `groupsRender`. -/
lemma valid_case_pair {y1 y2 y3 y4 m1 m2 d1 d2 : Char}
    (h1 : isDig y1 = true) (h2 : isDig y2 = true) (h3 : isDig y3 = true)
    (h4 : isDig y4 = true) (h5 : isDig m1 = true) (h6 : isDig m2 = true)
    (h7 : isDig d1 = true) (h8 : isDig d2 = true) :
    (Except.map some (datetime (strToInt [y1, y2, y3, y4]) (strToInt [m1, m2])
        (strToInt [d1, d2])) = Except.ok none
      ↔ (some (String.mk ([y1, y2, y3, y4] ++ '.' :: [m1, m2] ++ '.' :: [d1, d2]))
          : Option String) = none)
    ∧ (∀ dt : Date,
        Except.map some (datetime (strToInt [y1, y2, y3, y4]) (strToInt [m1, m2])
          (strToInt [d1, d2])) = Except.ok (some dt) →
        groupsRender (String.mk ([y1, y2, y3, y4] ++ '.' :: [m1, m2] ++ '.' :: [d1, d2]))
          dt)
    ∧ (∀ e : String,
        Except.map some (datetime (strToInt [y1, y2, y3, y4]) (strToInt [m1, m2])
          (strToInt [d1, d2])) = Except.error e →
        ∃ t : String,
          (some (String.mk ([y1, y2, y3, y4] ++ '.' :: [m1, m2] ++ '.' :: [d1, d2]))
            : Option String) = some t) := by
  refine ⟨?_, ?_, ?_⟩
  · constructor
    · intro h
      cases hmk : datetime (strToInt [y1, y2, y3, y4]) (strToInt [m1, m2])
          (strToInt [d1, d2]) with
      | error e =>
        rw [hmk] at h
        simp only [Except.map] at h
        exact Except.noConfusion h
      | ok dd =>
        rw [hmk] at h
        simp only [Except.map] at h
        injection h with h
        exact Option.noConfusion h
    · intro h
      exact Option.noConfusion h
  · intro dt h
    cases hmk : datetime (strToInt [y1, y2, y3, y4]) (strToInt [m1, m2])
        (strToInt [d1, d2]) with
    | error e =>
      rw [hmk] at h
      simp only [Except.map] at h
      exact Except.noConfusion h
    | ok dd =>
      rw [hmk] at h
      simp only [Except.map] at h
      injection h with h
      injection h with h
      have hdd := datetime_ok hmk
      rw [← h, hdd]
      exact groups_groupsRender h1 h2 h3 h4 h5 h6 h7 h8
  · intro e h
    exact ⟨_, rfl⟩

/-- The two scripts' contiguous fallbacks agree, up to the `datetime`
raise. -/
lemma method2_pair (name : List Char) :
    (AddBabyAge.method2 name = Except.ok none ↔ AddTimestamp.method2 name = none)
    ∧ (∀ dt : Date, AddBabyAge.method2 name = Except.ok (some dt) →
        ∃ t : String, AddTimestamp.method2 name = some t ∧ groupsRender t dt)
    ∧ (∀ e : String, AddBabyAge.method2 name = Except.error e →
        ∃ t : String, AddTimestamp.method2 name = some t) := by
  unfold AddBabyAge.method2 AddTimestamp.method2
  cases hc : searchContig name with
  | none =>
    refine ⟨by simp, fun dt h => ?_, fun e h => ?_⟩ <;> exact absurd h (by simp)
  | some g =>
    obtain ⟨t, ht⟩ := searchContig_matchAt hc
    obtain ⟨y1, y2, y3, y4, m1, m2, d1, d2, hr, h1, h2, h3, h4, h5, h6, h7, h8⟩ :=
      contigMatchAt_shape ht
    subst hr
    simp only [List.take, List.drop]
    by_cases hv : is_valid_date (strToInt [y1, y2, y3, y4]) (strToInt [m1, m2])
        (strToInt [d1, d2]) = true
    · rw [if_pos hv, if_pos hv]
      obtain ⟨p1, p2, p3⟩ := valid_case_pair h1 h2 h3 h4 h5 h6 h7 h8
      exact ⟨p1, fun dt h => ⟨_, rfl, p2 dt h⟩, p3⟩
    · rw [if_neg hv, if_neg hv]
      refine ⟨by simp, fun dt h => ?_, fun e h => ?_⟩ <;> exact absurd h (by simp)

end BabyPhoto

open BabyPhoto in
/-- C2 (amended): the two extractors agree except where the age script's
`datetime` constructor raises — both return null on exactly the same
filenames; whenever the age script returns Date(y, m, d), the timestamp
script returns the dot-joined matched digit groups, which parse to exactly
that (y, m, d) triple and which equal the zero-padded rendering
"YYYY.MM.DD" whenever the matched digits are ASCII (on other decimal-digit
scripts the verbatim string differs from the rendering); and whenever the
age script raises, the timestamp script instead returns some string. -/
theorem c2_extractor_equivalence (s : String) :
    (AddBabyAge.extract_date_from_filename s = Except.ok none
      ↔ AddTimestamp.extract_date_from_filename s = none)
    ∧ (∀ dt : Date, AddBabyAge.extract_date_from_filename s = Except.ok (some dt) →
        ∃ t : String, AddTimestamp.extract_date_from_filename s = some t
          ∧ groupsRender t dt)
    ∧ (∀ e : String, AddBabyAge.extract_date_from_filename s = Except.error e →
        ∃ t : String, AddTimestamp.extract_date_from_filename s = some t) := by
  unfold AddBabyAge.extract_date_from_filename AddTimestamp.extract_date_from_filename
  cases hd : searchDelim (splitextRoot s.data) with
  | none => exact method2_pair _
  | some g =>
    obtain ⟨t, ht⟩ := searchDelim_matchAt hd
    obtain ⟨y1, y2, y3, y4, m1, m2, d1, d2, hr, h1, h2, h3, h4, h5, h6, h7, h8⟩ :=
      delimMatchAt_shape ht
    subst hr
    dsimp only
    by_cases hv : is_valid_date (strToInt [y1, y2, y3, y4]) (strToInt [m1, m2])
        (strToInt [d1, d2]) = true
    · rw [if_pos hv, if_pos hv]
      obtain ⟨p1, p2, p3⟩ := valid_case_pair h1 h2 h3 h4 h5 h6 h7 h8
      exact ⟨p1, fun dt h => ⟨_, rfl, p2 dt h⟩, p3⟩
    · rw [if_neg hv, if_neg hv]
      exact method2_pair _

/-- C2 witness: on "IMG_2022.09.21.jpg" the timestamp script returns a string
in the `groupsRender` relation to the date the age script returns (here the
digits are ASCII, so that string is the zero-padded rendering). -/
theorem c2_extractor_equivalence_witness :
    ∃ t : String, AddTimestamp.extract_date_from_filename "IMG_2022.09.21.jpg"
        = some t
      ∧ BabyPhoto.groupsRender t ⟨2022, 9, 21⟩ :=
  (c2_extractor_equivalence "IMG_2022.09.21.jpg").2.1 ⟨2022, 9, 21⟩ (by decide)

/-- C2 counterexample: the extractors do not behave identically as the claim
states.  First, on "2025.04.31.jpg" the timestamp script returns the
rendered string of (2025, 4, 31) while the age script raises ValueError
instead of returning that Date.  Second, on the full-width-digit filename
"２０２２.０９.２１.jpg" (Python \d matches any Unicode decimal digit) the
age script returns Date(2022, 9, 21) while the timestamp script returns the
verbatim full-width string, not the zero-padded rendering of that triple. -/
theorem c2_extractors_diverge_counterexample :
    (AddTimestamp.extract_date_from_filename "2025.04.31.jpg" = some "2025.04.31"
      ∧ BabyPhoto.renderDate ⟨2025, 4, 31⟩ = "2025.04.31"
      ∧ AddBabyAge.extract_date_from_filename "2025.04.31.jpg"
          = Except.error "day is out of range for month")
    ∧ (AddBabyAge.extract_date_from_filename "２０２２.０９.２１.jpg"
          = Except.ok (some ⟨2022, 9, 21⟩)
      ∧ AddTimestamp.extract_date_from_filename "２０２２.０９.２１.jpg"
          = some "２０２２.０９.２１"
      ∧ ("２０２２.０９.２１" : String) ≠ BabyPhoto.renderDate ⟨2022, 9, 21⟩) :=
  ⟨⟨by decide, by decide, by decide⟩, by decide, by decide, by decide⟩

open BabyPhoto in
/-- C9 (amended): every string the timestamp script returns is the
dot-joining of the matched digit groups (widths 4, 2 and 2) whose parsed
values form a coarse-range-valid date, and it equals the zero-padded
rendering "{year}.{month}.{day}" of that date whenever the matched digits
are ASCII; in particular the rendering of Date(2022, 9, 1) is "2022.09.01",
and the filename "IMG_2022.09.21.jpg" yields "2022.09.21". -/
theorem c9_timestamp_rendering :
    (∀ (s t : String), AddTimestamp.extract_date_from_filename s = some t →
      ∃ dt : Date, groupsRender t dt
        ∧ 2000 ≤ dt.year ∧ dt.year ≤ 2099 ∧ 1 ≤ dt.month ∧ dt.month ≤ 12
        ∧ 1 ≤ dt.day ∧ dt.day ≤ 31)
    ∧ renderDate ⟨2022, 9, 1⟩ = "2022.09.01"
    ∧ AddTimestamp.extract_date_from_filename "IMG_2022.09.21.jpg" = some "2022.09.21" := by
  refine ⟨?_, by decide, by decide⟩
  intro s t h
  unfold AddTimestamp.extract_date_from_filename at h
  have main : ∀ (name : List Char), AddTimestamp.method2 name = some t →
      ∃ dt : Date, groupsRender t dt
        ∧ 2000 ≤ dt.year ∧ dt.year ≤ 2099 ∧ 1 ≤ dt.month ∧ dt.month ≤ 12
        ∧ 1 ≤ dt.day ∧ dt.day ≤ 31 := by
    intro name hm
    unfold AddTimestamp.method2 at hm
    split at hm
    · rename_i ys mds heq
      split at hm
      · rename_i hv
        obtain ⟨u, hu⟩ := searchContig_matchAt heq
        obtain ⟨y1, y2, y3, y4, m1, m2, d1, d2, hr, h1, h2, h3, h4, h5, h6, h7, h8⟩ :=
          contigMatchAt_shape hu
        have hys : ys = [y1, y2, y3, y4] := congrArg Prod.fst hr
        have hmds : mds = [m1, m2, d1, d2] := congrArg Prod.snd hr
        subst hys
        subst hmds
        simp only [List.take, List.drop] at hm hv
        injection hm with hm
        refine ⟨⟨strToInt [y1, y2, y3, y4], strToInt [m1, m2], strToInt [d1, d2]⟩,
          ?_, ?_⟩
        · rw [← hm]
          exact groups_groupsRender h1 h2 h3 h4 h5 h6 h7 h8
        · exact (is_valid_date_iff _ _ _).mp hv
      · exact Option.noConfusion hm
    · exact Option.noConfusion hm
  split at h
  · rename_i ys ms ds heq
    split at h
    · rename_i hv
      obtain ⟨u, hu⟩ := searchDelim_matchAt heq
      obtain ⟨y1, y2, y3, y4, m1, m2, d1, d2, hr, h1, h2, h3, h4, h5, h6, h7, h8⟩ :=
        delimMatchAt_shape hu
      injection hr with hys hr
      injection hr with hms hds
      subst hys
      subst hms
      subst hds
      injection h with h
      refine ⟨⟨strToInt [y1, y2, y3, y4], strToInt [m1, m2], strToInt [d1, d2]⟩, ?_, ?_⟩
      · rw [← h]
        exact groups_groupsRender h1 h2 h3 h4 h5 h6 h7 h8
      · exact (is_valid_date_iff _ _ _).mp hv
    · exact main _ h
  · exact main _ h

/-- C9 counterexample to the claim as stated: Python's \d matches full-width
digits, so on "２０２２.０９.２１.jpg" the extracted date is (2022, 9, 21) —
the age script returns it — but the timestamp script returns the verbatim
full-width string "２０２２.０９.２１", which is not the zero-padded
rendering "2022.09.21" of the extracted fields. -/
theorem c9_claim_counterexample :
    AddBabyAge.extract_date_from_filename "２０２２.０９.２１.jpg"
        = Except.ok (some ⟨2022, 9, 21⟩)
    ∧ AddTimestamp.extract_date_from_filename "２０２２.０９.２１.jpg"
        = some "２０２２.０９.２１"
    ∧ BabyPhoto.renderDate ⟨2022, 9, 21⟩ = "2022.09.21"
    ∧ ("２０２２.０９.２１" : String) ≠ "2022.09.21" :=
  ⟨by decide, by decide, by decide, by decide⟩

/-- C9 witness: applying the general property to the concrete extraction on
"IMG_2022.09.21.jpg" (ASCII digits, so the string is the rendering). -/
theorem c9_timestamp_rendering_witness :
    ∃ dt : BabyPhoto.Date, BabyPhoto.groupsRender "2022.09.21" dt
      ∧ 2000 ≤ dt.year ∧ dt.year ≤ 2099 ∧ 1 ≤ dt.month ∧ dt.month ≤ 12
      ∧ 1 ≤ dt.day ∧ dt.day ≤ 31 :=
  c9_timestamp_rendering.1 "IMG_2022.09.21.jpg" "2022.09.21" (by decide)

/-- C1: the age script's extractor is not total — on "2025.04.31.jpg" the
regex matches, the triple passes the coarse range checks, and the call
`datetime(2025, 4, 31)` raises ValueError (April has 30 days).  The raise
escapes `extract_date_from_filename` (the `try` in `_is_valid_date` guards
only the `int` conversions), so extraction neither returns a Date nor null
here, contradicting the never-raises claim. -/
theorem c1_extractor_raises_on_april31 :
    AddBabyAge.extract_date_from_filename "2025.04.31.jpg"
      = Except.error "day is out of range for month" := by decide

open BabyPhoto in
/-- C3 (amended): when the delimited rule's leftmost match fails range
validation, the extractor does not return null — it falls through to the
contiguous year+MMDD fallback and returns whatever method 2 produces. -/
theorem c3_invalid_delim_falls_to_contiguous (s : String)
    (g : List Char × List Char × List Char)
    (h : searchDelim (splitextRoot s.data) = some g)
    (hv : is_valid_date (strToInt g.1) (strToInt g.2.1) (strToInt g.2.2) = false) :
    AddBabyAge.extract_date_from_filename s
      = AddBabyAge.method2 (splitextRoot s.data) := by
  obtain ⟨ys, ms, ds⟩ := g
  unfold AddBabyAge.extract_date_from_filename
  rw [h]
  dsimp only at hv ⊢
  rw [if_neg (by rw [hv]; exact Bool.false_ne_true)]

/-- C3 witness: the invalid leftmost delimited triple 1999-09-21 sends
extraction into the contiguous fallback. -/
theorem c3_invalid_delim_falls_to_contiguous_witness :
    AddBabyAge.extract_date_from_filename "1999.09.21_20250904.jpg"
      = AddBabyAge.method2 (BabyPhoto.splitextRoot "1999.09.21_20250904.jpg".data) :=
  c3_invalid_delim_falls_to_contiguous "1999.09.21_20250904.jpg"
    (['1', '9', '9', '9'], ['0', '9'], ['2', '1']) (by decide) (by decide)

/-- C3 counterexample to the claim as stated: in
"1999.09.21_20250904.jpg" the delimited rule matches 1999-09-21, which fails
range validation — yet extraction does not return null: the contiguous
fallback is still tried and yields Date(2025, 9, 4). -/
theorem c3_claim_counterexample :
    BabyPhoto.searchDelim (BabyPhoto.splitextRoot "1999.09.21_20250904.jpg".data)
        = some (['1', '9', '9', '9'], ['0', '9'], ['2', '1'])
    ∧ BabyPhoto.is_valid_date 1999 9 21 = false
    ∧ AddBabyAge.extract_date_from_filename "1999.09.21_20250904.jpg"
        = Except.ok (some ⟨2025, 9, 4⟩) :=
  ⟨by decide, by decide, by decide⟩

open BabyPhoto in
/-- C6 (amended): when the delimited rule's leftmost match passes range
validation, its result is returned immediately — the `datetime` of its
groups — regardless of any contiguous pattern elsewhere in the name. -/
theorem c6_first_valid_delim_returned (s : String)
    (g : List Char × List Char × List Char)
    (h : searchDelim (splitextRoot s.data) = some g)
    (hv : is_valid_date (strToInt g.1) (strToInt g.2.1) (strToInt g.2.2) = true) :
    AddBabyAge.extract_date_from_filename s
      = Except.map some (datetime (strToInt g.1) (strToInt g.2.1) (strToInt g.2.2)) := by
  obtain ⟨ys, ms, ds⟩ := g
  unfold AddBabyAge.extract_date_from_filename
  rw [h]
  dsimp only at hv ⊢
  rw [if_pos hv]

/-- C6 witness: with both a valid delimited triple and a valid contiguous
pattern present, the delimited date 2022-09-21 wins. -/
theorem c6_first_valid_delim_returned_witness :
    AddBabyAge.extract_date_from_filename "2022-09-21_x20250904.jpg"
      = Except.ok (some ⟨2022, 9, 21⟩) :=
  (c6_first_valid_delim_returned "2022-09-21_x20250904.jpg"
    (['2', '0', '2', '2'], ['0', '9'], ['2', '1']) (by decide) (by decide)).trans
    (by decide)

/-- C6 counterexample to the claim as stated: "1999.13.99_2022-09-21_x20250904.jpg"
contains a range-valid delimited triple (2022-09-21) and a range-valid
contiguous pattern (20250904), yet extraction returns the contiguous date
2025-09-04, which is not the date of any delimited match in the name — the
leftmost delimited match 1999.13.99 fails validation and the delimited rule
is never retried. -/
theorem c6_claim_counterexample :
    BabyPhoto.hasValidDelim "1999.13.99_2022-09-21_x20250904.jpg" = true
    ∧ BabyPhoto.hasValidContig "1999.13.99_2022-09-21_x20250904.jpg" = true
    ∧ AddBabyAge.extract_date_from_filename "1999.13.99_2022-09-21_x20250904.jpg"
        = Except.ok (some ⟨2025, 9, 4⟩)
    ∧ (⟨2025, 9, 4⟩ : BabyPhoto.Date)
        ∉ BabyPhoto.delimDatesIn "1999.13.99_2022-09-21_x20250904.jpg" :=
  ⟨by decide, by decide, by decide, by decide⟩

/-- C10: extension stripping removes only the final dot-suffix, so the
extensionless name "2022.09.21" loses its day component (the root becomes
"2022.09") and extraction finds nothing, while "2022.09.21.jpg" extracts
Date(2022, 9, 21) — in both scripts. -/
theorem c10_extension_stripping :
    BabyPhoto.splitextRoot "2022.09.21".data = "2022.09".data
    ∧ AddBabyAge.extract_date_from_filename "2022.09.21" = Except.ok none
    ∧ AddTimestamp.extract_date_from_filename "2022.09.21" = none
    ∧ AddBabyAge.extract_date_from_filename "2022.09.21.jpg"
        = Except.ok (some ⟨2022, 9, 21⟩)
    ∧ AddTimestamp.extract_date_from_filename "2022.09.21.jpg" = some "2022.09.21" :=
  ⟨by decide, by decide, by decide, by decide, by decide⟩
